import Mathlib

/-!
Verification of the blockifier entry-point execution core.

Shallow embedding of the code in:
  crates/blockifier/src/execution/entry_point.rs
  crates/blockifier/src/execution/syscalls/hint_processor.rs
  crates/blockifier/src/transaction/transaction_types.rs

Field elements (StarkFelt, ClassHash, ContractAddress, selectors) are embedded as Nat;
u64 and usize counters as Nat. VM memory segments are modelled as a list of
segments with pointers as indices. Error enums that live in files outside the
extracted sources (errors.rs) are modelled from the spec's error taxonomy.
-/

namespace Blockifier

/-- A 252-bit StarkNet field element, embedded as a natural number. -/
abbrev Felt := Nat

/-- The well-known faulty class hash constant from entry_point.rs. -/
def FAULTY_CLASS_HASH : Felt :=
  0x1A7820094FEAF82D53F53F214B81292D717E7BB9A92BB2488092CD306F3993F

/-- ASCII packing of "Out of gas" (hint_processor.rs). -/
def OUT_OF_GAS_ERROR : Felt :=
  0x000000000000000000000000000000000000000000004f7574206f6620676173

/-- Name of the constructor entry point (abi::constants). -/
def CONSTRUCTOR_ENTRY_POINT_NAME : String := "constructor"

/-- Modelled from the spec: the State interface error for an undeclared class
(state::errors, not under src/); the spec's PreExecution taxonomy lists
UndeclaredClassHash for a failing get_compiled_contract_class. -/
inductive StateError where
  | UndeclaredClassHash (class_hash : Felt)
deriving DecidableEq

/-- Modelled from the spec: the PreExecution error taxonomy of section 7
(execution::errors, not under src/). -/
inductive PreExecutionError where
  | FraudAttempt
  | UninitializedStorageAddress (address : Felt)
  | UndeclaredClassHash (class_hash : Felt)
deriving DecidableEq

/-- Modelled from the spec: the EntryPointExecution error taxonomy of section 7
(execution::errors, not under src/).  The payload of a raw VM error is
abstracted to its trace text. -/
inductive EntryPointExecutionError where
  | RecursionDepthExceeded
  | PreExecution (e : PreExecutionError)
  | VirtualMachineExecutionError (info : String)
  | VirtualMachineExecutionErrorWithTrace (trace : String) (source : String)
  | InvalidExecutionInput (input_descriptor : String) (info : String)
deriving DecidableEq

/-- SyscallExecutionError (hint_processor.rs).  Transparent wraps whose payload
types are external (memory, math, VM errors) are abstracted to strings. -/
inductive SyscallExecutionError where
  | BadSyscallPointer (expected_ptr : Nat) (actual_ptr : Nat)
  | ForbiddenClassReplacement (class_hash : Felt)
  | InvalidAddressDomain (address_domain : Felt)
  | InnerCallExecutionError (e : EntryPointExecutionError)
  | InvalidSyscallInput (input : Felt) (info : String)
  | InvalidSyscallSelector (selector : Felt)
  | SyscallError (error_data : List Felt)
deriving DecidableEq

/-- ParseError for transaction types (transaction::errors, the variant used by
transaction_types.rs). -/
inductive ParseError where
  | UnknownTransactionType (s : String)
deriving DecidableEq

/-- TransactionType (transaction_types.rs). -/
inductive TransactionType where
  | Declare
  | DeployAccount
  | InvokeFunction
  | L1Handler
deriving DecidableEq

/-- FromStr for TransactionType (transaction_types.rs, lines 20-32). -/
def TransactionType.from_str (tx_type : String) : Except ParseError TransactionType :=
  if tx_type = "Declare" ∨ tx_type = "DECLARE" then .ok .Declare
  else if tx_type = "DeployAccount" ∨ tx_type = "DEPLOY_ACCOUNT" then .ok .DeployAccount
  else if tx_type = "InvokeFunction" ∨ tx_type = "INVOKE_FUNCTION" then .ok .InvokeFunction
  else if tx_type = "L1Handler" ∨ tx_type = "L1_HANDLER" then .ok .L1Handler
  else .error (.UnknownTransactionType tx_type)

/-- felt_to_bool (hint_processor.rs, lines 517-525). -/
def felt_to_bool (felt : Felt) (error_info : String) : Except SyscallExecutionError Bool :=
  if felt = 0 then .ok false
  else if felt = 1 then .ok true
  else .error (.InvalidSyscallInput felt error_info)

/-- A secp256k1 affine point (ark_secp256k1::Affine), embedded by its
coordinates and point-at-infinity flag. -/
structure Secp256k1Affine where
  x : Nat
  y : Nat
  infinity : Bool
deriving DecidableEq

/-- Felt252::to_usize (num_traits::ToPrimitive): on a 64-bit platform the
conversion succeeds exactly when the value fits in a u64. -/
def felt252_to_usize (f : Felt) : Option Nat :=
  if f < 2 ^ 64 then some f else none

/-- SyscallHintProcessor::allocate_secp256k1_point (hint_processor.rs,
lines 432-437): returns the fresh identifier and the grown point store. -/
def allocate_secp256k1_point (points : List Secp256k1Affine) (ec_point : Secp256k1Affine) :
    Nat × List Secp256k1Affine :=
  (points.length, points ++ [ec_point])

/-- SyscallHintProcessor::get_secp256k1_point_by_id (hint_processor.rs,
lines 439-449). -/
def get_secp256k1_point_by_id (points : List Secp256k1Affine) (ec_point_id : Felt) :
    Except SyscallExecutionError Secp256k1Affine :=
  match (felt252_to_usize ec_point_id).bind (fun id => points.get? id) with
  | some p => .ok p
  | none => .error (.InvalidSyscallInput ec_point_id "Invalid Secp256k1 point ID")

/-- EntryPointType (starknet_api::deprecated_contract_class). -/
inductive EntryPointType where
  | Constructor
  | External
  | L1Handler
deriving DecidableEq

/-- CallType (entry_point.rs, lines 33-38). -/
inductive CallType where
  | Call
  | Delegate
deriving DecidableEq

/-- CallEntryPoint (entry_point.rs, lines 40-56).  Calldata is embedded as its
underlying list of field elements. -/
structure CallEntryPoint where
  class_hash : Option Felt
  code_address : Option Felt
  entry_point_type : EntryPointType
  entry_point_selector : Felt
  calldata : List Felt
  storage_address : Felt
  caller_address : Felt
  call_type : CallType
  initial_gas : Nat
deriving DecidableEq

/-- ConstructorContext (entry_point.rs, lines 58-64). -/
structure ConstructorContext where
  class_hash : Felt
  code_address : Option Felt
  storage_address : Felt
  caller_address : Felt
deriving DecidableEq

/-- EventContent (starknet_api::transaction): keys and data of an event. -/
structure EventContent where
  keys : List Felt
  data : List Felt
deriving DecidableEq

/-- OrderedEvent (entry_point.rs, lines 250-254). -/
structure OrderedEvent where
  order : Nat
  event : EventContent
deriving DecidableEq

/-- MessageToL1 (entry_point.rs, lines 256-260).  The L2ToL1Payload is embedded
as its underlying list of field elements. -/
structure MessageToL1 where
  to_address : Felt
  payload : List Felt
deriving DecidableEq

/-- OrderedL2ToL1Message (entry_point.rs, lines 262-266). -/
structure OrderedL2ToL1Message where
  order : Nat
  message : MessageToL1
deriving DecidableEq

/-- CallExecution (entry_point.rs, lines 267-274).  Retdata is embedded as its
underlying list of field elements. -/
structure CallExecution where
  retdata : List Felt
  events : List OrderedEvent
  l2_to_l1_messages : List OrderedL2ToL1Message
  failed : Bool
  gas_consumed : Nat
deriving DecidableEq

/-- Default CallExecution (derived Default in the source). -/
def CallExecution.default : CallExecution :=
  { retdata := [], events := [], l2_to_l1_messages := [], failed := false, gas_consumed := 0 }

/-- VM execution resources of one frame (cairo_vm ExecutionResources),
abstracted to its step counter; only its Default value matters here. -/
structure VmExecutionResources where
  n_steps : Nat
deriving DecidableEq

/-- CallInfo (entry_point.rs, lines 276-286).  The accessed-storage-key set is
embedded as a list of keys. -/
inductive CallInfo where
  | mk (call : CallEntryPoint) (execution : CallExecution)
       (vm_resources : VmExecutionResources) (inner_calls : List CallInfo)
       (storage_read_values : List Felt) (accessed_storage_keys : List Felt)

def CallInfo.call : CallInfo → CallEntryPoint
  | .mk c _ _ _ _ _ => c

def CallInfo.execution : CallInfo → CallExecution
  | .mk _ e _ _ _ _ => e

def CallInfo.vm_resources : CallInfo → VmExecutionResources
  | .mk _ _ v _ _ _ => v

def CallInfo.inner_calls : CallInfo → List CallInfo
  | .mk _ _ _ i _ _ => i

def CallInfo.storage_read_values : CallInfo → List Felt
  | .mk _ _ _ _ r _ => r

def CallInfo.accessed_storage_keys : CallInfo → List Felt
  | .mk _ _ _ _ _ a => a

/-- AccountTransactionContext (transaction::objects, consumed interface):
the fields read by the embedded operations. -/
structure AccountTransactionContext where
  version : Felt
  max_fee : Nat
deriving DecidableEq

/-- EntryPointExecutionContext (entry_point.rs, lines 72-88).  The read-only
block context is represented by the max_recursion_depth it supplies; the
remaining VM run resources are embedded as the remaining step count. -/
structure EntryPointExecutionContext where
  account_tx_context : AccountTransactionContext
  vm_run_resources : Nat
  n_emitted_events : Nat
  n_sent_messages_to_l1 : Nat
  error_stack : List (Felt × String)
  current_recursion_depth : Nat
  max_recursion_depth : Nat
deriving DecidableEq

/-- ContractClass (consumed interface): the only part the embedded operations
inspect is the optional constructor selector. -/
structure ContractClass where
  constructor_selector : Option Felt
deriving DecidableEq

/-- The State interface of section 6, embedded as total maps: a zero class hash
means undeployed, an absent contract class means undeclared. -/
structure StateModel where
  class_hash_at : Felt → Felt
  contract_classes : Felt → Option ContractClass

/-- Renders a field element in hexadecimal (display of a contract address key;
the exact text is external to the extracted sources). -/
def felt_to_hex (a : Felt) : String :=
  "0x" ++ String.mk (Nat.toDigits 16 a)

/-- EntryPointExecutionContext::error_trace (entry_point.rs, lines 163-176). -/
def error_trace (ctx : EntryPointExecutionContext) : String :=
  String.intercalate "\n"
    (ctx.error_stack.reverse.map (fun p =>
      "Error in the called contract (" ++ felt_to_hex p.1 ++ "):\n" ++ p.2))

/-- The VM runner invoked by execute (execute_entry_point_call, in
execution_utils outside the extracted sources): it consumes the effective call
and contract class and may mutate state and context.  The embedding of
CallEntryPoint::execute is parametric in it. -/
def EntryPointRunner : Type :=
  CallEntryPoint → ContractClass → StateModel → EntryPointExecutionContext →
    (Except EntryPointExecutionError CallInfo) × StateModel × EntryPointExecutionContext

/-- CallEntryPoint::execute (entry_point.rs, lines 180-237).  State and context
mutation is made explicit: the function returns the result together with the
final state and context. -/
def CallEntryPoint.execute (runner : EntryPointRunner) (self : CallEntryPoint)
    (st : StateModel) (context : EntryPointExecutionContext) :
    (Except EntryPointExecutionError CallInfo) × StateModel × EntryPointExecutionContext :=
  let context := { context with current_recursion_depth := context.current_recursion_depth + 1 }
  if context.current_recursion_depth > context.max_recursion_depth then
    (.error .RecursionDepthExceeded, st, context)
  else
    -- Validate contract is deployed.
    let storage_address := self.storage_address
    let storage_class_hash := st.class_hash_at self.storage_address
    if storage_class_hash = 0 then
      (.error (.PreExecution (.UninitializedStorageAddress self.storage_address)), st, context)
    else
      let class_hash := match self.class_hash with
        | some class_hash => class_hash
        | none => storage_class_hash
      -- Hack to prevent version 0 attack on argent accounts.
      if context.account_tx_context.version = 0 ∧ class_hash = FAULTY_CLASS_HASH then
        (.error (.PreExecution .FraudAttempt), st, context)
      else
        let self := { self with class_hash := some class_hash }
        match st.contract_classes class_hash with
        | none => (.error (.PreExecution (.UndeclaredClassHash class_hash)), st, context)
        | some contract_class =>
          let result := runner self contract_class st context
          match result with
          | (.error (.VirtualMachineExecutionError info), st', ctx') =>
            -- On VM error, pack the stack trace into the propagated error.
            let ctx' := { ctx' with error_stack := ctx'.error_stack ++ [(storage_address, info)] }
            (.error (.VirtualMachineExecutionErrorWithTrace (error_trace ctx') info), st',
              { ctx' with current_recursion_depth := ctx'.current_recursion_depth - 1 })
          | (other, st', ctx') =>
            (other, st', { ctx' with current_recursion_depth := ctx'.current_recursion_depth - 1 })

/-- abi_utils::selector_from_name.  Modelled from the spec: the selector
derivation (a hash of the entry point name) lives in crate::abi::abi_utils,
which is not under src/; it is modelled as a fixed deterministic encoding of
the name's characters. -/
def selector_from_name (name : String) : Felt :=
  name.data.foldl (fun acc c => acc * 256 + c.toNat) 0

/-- handle_empty_constructor (entry_point.rs, lines 396-425). -/
def handle_empty_constructor (ctor_context : ConstructorContext) (calldata : List Felt)
    (remaining_gas : Nat) : Except EntryPointExecutionError CallInfo :=
  -- Validate no calldata.
  if calldata ≠ [] then
    .error (.InvalidExecutionInput "constructor_calldata"
      "Cannot pass calldata to a contract with no constructor.")
  else
    .ok (CallInfo.mk
      { class_hash := some ctor_context.class_hash
        code_address := ctor_context.code_address
        entry_point_type := .Constructor
        entry_point_selector := selector_from_name CONSTRUCTOR_ENTRY_POINT_NAME
        calldata := []
        storage_address := ctor_context.storage_address
        caller_address := ctor_context.caller_address
        call_type := .Call
        initial_gas := remaining_gas }
      CallExecution.default { n_steps := 0 } [] [] [])

/-- execute_constructor_entry_point (entry_point.rs, lines 366-394). -/
def execute_constructor_entry_point (runner : EntryPointRunner) (st : StateModel)
    (context : EntryPointExecutionContext) (ctor_context : ConstructorContext)
    (calldata : List Felt) (remaining_gas : Nat) :
    (Except EntryPointExecutionError CallInfo) × StateModel × EntryPointExecutionContext :=
  -- Ensure the class is declared (by reading it).
  match st.contract_classes ctor_context.class_hash with
  | none => (.error (.PreExecution (.UndeclaredClassHash ctor_context.class_hash)), st, context)
  | some contract_class =>
    match contract_class.constructor_selector with
    | none =>
      -- Contract has no constructor.
      (handle_empty_constructor ctor_context calldata remaining_gas, st, context)
    | some constructor_selector =>
      let constructor_call : CallEntryPoint :=
        { class_hash := none
          code_address := ctor_context.code_address
          entry_point_type := .Constructor
          entry_point_selector := constructor_selector
          calldata := calldata
          storage_address := ctor_context.storage_address
          caller_address := ctor_context.caller_address
          call_type := .Call
          initial_gas := remaining_gas }
      constructor_call.execute runner st context

/-- SyscallRequestWrapper (syscalls module): the gas counter read from memory
followed by the selector-specific request body. -/
structure SyscallRequestWrapper (Request : Type) where
  gas_counter : Nat
  request : Request

/-- SyscallResponseWrapper (syscalls module): the success or failure response
written back to VM memory. -/
inductive SyscallResponseWrapper (Response : Type) where
  | Success (gas_counter : Nat) (response : Response)
  | Failure (gas_counter : Nat) (error_data : List Felt)

/-- SyscallHintProcessor::execute_syscall (hint_processor.rs, lines 280-326).
Reading the request from VM memory is modelled by taking the decoded wrapper as
an argument, and writing the response by returning the response wrapper.  The
callback's mutable access to the processor is modelled by a generic state it
threads, together with the remaining-gas cell; a non-protocol callback error
aborts the hint (the Except error). -/
def execute_syscall {Request Response HandlerState : Type}
    (wrapper : SyscallRequestWrapper Request) (base_gas_cost : Nat)
    (execute_callback :
      Request → HandlerState → Nat → (Except SyscallExecutionError Response) × HandlerState × Nat)
    (s : HandlerState) :
    (Except SyscallExecutionError (SyscallResponseWrapper Response)) × HandlerState :=
  if wrapper.gas_counter < base_gas_cost then
    -- Out of gas failure.
    (.ok (.Failure wrapper.gas_counter [OUT_OF_GAS_ERROR]), s)
  else
    -- Execute.
    let remaining_gas := wrapper.gas_counter - base_gas_cost
    match execute_callback wrapper.request s remaining_gas with
    | (.ok response, s', remaining_gas') =>
      (.ok (.Success remaining_gas' response), s')
    | (.error (.SyscallError data), s', remaining_gas') =>
      (.ok (.Failure remaining_gas' data), s')
    | (.error e, s', _) => (.error e, s')

/-- A read-only VM segment descriptor (execution_utils::ReadOnlySegment). -/
structure ReadOnlySegment where
  start_ptr : Nat
  length : Nat
deriving DecidableEq

/-- The VM's read-only segments, modelled as a list of segments with segment
indices as pointers (ReadOnlySegments lives in execution_utils, outside the
extracted sources; only allocation order is observable here). -/
structure VmModel where
  segments : List (List Felt)
deriving DecidableEq

/-- ReadOnlySegments::allocate: append a segment, return its pointer. -/
def vm_allocate_segment (vm : VmModel) (data : List Felt) : Nat × VmModel :=
  (vm.segments.length, ⟨vm.segments ++ [data]⟩)

/-- create_retdata_segment (hint_processor.rs, lines 565-575). -/
def create_retdata_segment (vm : VmModel) (raw_retdata : List Felt) :
    ReadOnlySegment × VmModel :=
  let (retdata_segment_start_ptr, vm') := vm_allocate_segment vm raw_retdata
  ({ start_ptr := retdata_segment_start_ptr, length := raw_retdata.length }, vm')

/-- Modelled from the spec: update_remaining_gas (transaction_utils, not under
src/) decrements the remaining gas by the inner frame's declared gas_consumed
(spec section 4.3: after inner return, decrement remaining_gas by the inner
frame's declared gas_consumed). -/
def update_remaining_gas (remaining_gas : Nat) (call_info : CallInfo) : Nat :=
  remaining_gas - call_info.execution.gas_consumed

/-- The mutable references of the frame that execute_inner_call works on: the
VM, the handler's state and context, and its accumulated inner calls. -/
structure InnerCallFrame where
  vm : VmModel
  st : StateModel
  ctx : EntryPointExecutionContext
  inner_calls : List CallInfo

/-- The dispatched inner execute: call.execute on the already-built inner
CallEntryPoint, as a function of the handler's state and context. -/
def InnerExec : Type :=
  StateModel → EntryPointExecutionContext →
    (Except EntryPointExecutionError CallInfo) × StateModel × EntryPointExecutionContext

/-- execute_inner_call (hint_processor.rs, lines 541-563).  The call being
dispatched is abstracted into the exec function (its call.execute). -/
def execute_inner_call (exec : InnerExec) (frame : InnerCallFrame) (remaining_gas : Nat) :
    (Except SyscallExecutionError ReadOnlySegment) × InnerCallFrame × Nat :=
  match exec frame.st frame.ctx with
  | (.error e, st', ctx') =>
    (.error (.InnerCallExecutionError e), { frame with st := st', ctx := ctx' }, remaining_gas)
  | (.ok call_info, st', ctx') =>
    if call_info.execution.failed then
      (.error (.SyscallError call_info.execution.retdata),
        { frame with st := st', ctx := ctx' }, remaining_gas)
    else
      let (retdata_segment, vm') := create_retdata_segment frame.vm call_info.execution.retdata
      let remaining_gas' := update_remaining_gas remaining_gas call_info
      (.ok retdata_segment,
        { vm := vm', st := st', ctx := ctx',
          inner_calls := frame.inner_calls ++ [call_info] }, remaining_gas')

/-- An inner-call syscall as observed by the caller: execute_syscall wired to
execute_inner_call as its selector callback (the shape of CallContract and
LibraryCall dispatch). -/
def inner_call_syscall (exec : InnerExec) (gas_counter base_gas_cost : Nat)
    (frame : InnerCallFrame) :
    (Except SyscallExecutionError (SyscallResponseWrapper ReadOnlySegment)) × InnerCallFrame :=
  execute_syscall { gas_counter := gas_counter, request := () } base_gas_cost
    (fun _ fr remaining =>
      let r := execute_inner_call exec fr remaining
      (r.1, r.2.1, r.2.2))
    frame

mutual

/-- Number of nodes of a call tree (termination measure for the iterator). -/
def callInfoSize : CallInfo → Nat
  | .mk _ _ _ inner _ _ => 1 + callInfoListSize inner

/-- Total number of nodes of a list of call trees. -/
def callInfoListSize : List CallInfo → Nat
  | [] => 0
  | c :: cs => callInfoSize c + callInfoListSize cs

end

/-- The pre-order iterator over a call tree (CallInfoIter, entry_point.rs,
lines 339-364), as the list it yields: the stack top is the list head, and
popping a node pushes its inner calls reversed onto the stack end, so that the
leftmost inner call is popped next. -/
def drainCallInfos : List CallInfo → List CallInfo
  | [] => []
  | top :: rest => top :: drainCallInfos (top.inner_calls ++ rest)
termination_by l => callInfoListSize l
decreasing_by
  have h : ∀ (a b : List CallInfo),
      callInfoListSize (a ++ b) = callInfoListSize a + callInfoListSize b := by
    intro a b
    induction a with
    | nil => simp [callInfoListSize]
    | cons hd tl ih => simp [callInfoListSize, ih]; omega
  rw [h]
  cases c with
  | mk cc e v inner r a =>
    simp only [CallInfo.inner_calls, callInfoListSize, callInfoSize]
    omega

/-- IntoIterator for CallInfo (entry_point.rs, lines 357-364): iteration starts
from the root alone. -/
def CallInfo.intoIter (c : CallInfo) : List CallInfo :=
  drainCallInfos [c]

/-- Total message count (entry_point.rs, line 305): the sum over all frames of
their message-list lengths. -/
def CallInfo.n_messages (c : CallInfo) : Nat :=
  (c.intoIter.map (fun call => call.execution.l2_to_l1_messages.length)).sum

/-- TransactionExecutionError (transaction::errors): the two variants produced
by get_sorted_l2_to_l1_payloads_length. -/
inductive TransactionExecutionError where
  | InvalidOrder (object : String) (order : Nat) (max_order : Nat)
  | UnexpectedHoles (object : String) (order : Nat)
deriving DecidableEq

/-- The inner loop of get_sorted_l2_to_l1_payloads_length (entry_point.rs,
lines 309-321): writes each message's payload length into the slot indexed by
its order, failing on an out-of-range order. -/
def fillMessages (n_messages : Nat) :
    List OrderedL2ToL1Message → List (Option Nat) →
      Except TransactionExecutionError (List (Option Nat))
  | [], slots => .ok slots
  | m :: rest, slots =>
    if m.order ≥ n_messages then
      .error (.InvalidOrder "L2-to-L1 message" m.order n_messages)
    else
      fillMessages n_messages rest (slots.set m.order (some m.message.payload.length))

/-- The outer loop of get_sorted_l2_to_l1_payloads_length over the pre-order
frames (entry_point.rs, lines 308-321). -/
def fillCalls (n_messages : Nat) :
    List CallInfo → List (Option Nat) → Except TransactionExecutionError (List (Option Nat))
  | [], slots => .ok slots
  | c :: cs, slots =>
    match fillMessages n_messages c.execution.l2_to_l1_messages slots with
    | .ok slots' => fillCalls n_messages cs slots'
    | .error e => .error e

/-- The final try_fold of get_sorted_l2_to_l1_payloads_length (entry_point.rs,
lines 323-335): turns the filled slots into the payload-length list, failing at
the first hole.  The first argument is the index of the current slot. -/
def collectSlots : Nat → List (Option Nat) → Except TransactionExecutionError (List Nat)
  | _, [] => .ok []
  | i, none :: _ => .error (.UnexpectedHoles "L2-to-L1 message" i)
  | i, some value :: rest =>
    match collectSlots (i + 1) rest with
    | .ok acc => .ok (value :: acc)
    | .error e => .error e

/-- CallInfo::get_sorted_l2_to_l1_payloads_length (entry_point.rs,
lines 304-336). -/
def CallInfo.get_sorted_l2_to_l1_payloads_length (c : CallInfo) :
    Except TransactionExecutionError (List Nat) :=
  match fillCalls c.n_messages c.intoIter (List.replicate c.n_messages none) with
  | .ok slots => collectSlots 0 slots
  | .error e => .error e

/-- All messages of a call tree in pre-order, frame by frame. -/
def CallInfo.allMessages (c : CallInfo) : List OrderedL2ToL1Message :=
  c.intoIter.flatMap (fun call => call.execution.l2_to_l1_messages)

/-- The fill-then-collect pipeline of get_sorted_l2_to_l1_payloads_length, on
an explicit message list and total message count. -/
def sortedPayloadLengths (n : Nat) (msgs : List OrderedL2ToL1Message) :
    Except TransactionExecutionError (List Nat) :=
  match fillMessages n msgs (List.replicate n none) with
  | .ok slots => collectSlots 0 slots
  | .error e => .error e

/-- A whole sequence of secp256k1 point allocations in a frame, starting from
the empty store: returns the identifiers handed out, in order, and the final
store. -/
def allocate_fold (ps : List Secp256k1Affine) : List Nat × List Secp256k1Affine :=
  ps.foldl
    (fun acc pt =>
      let r := allocate_secp256k1_point acc.2 pt
      (acc.1 ++ [r.1], r.2))
    ([], [])

/-- A concrete execution context: the given transaction version, recursion
depth and recursion bound. -/
def mkContext (version : Felt) (depth max_depth : Nat) : EntryPointExecutionContext :=
  { account_tx_context := { version := version, max_fee := 0 }
    vm_run_resources := 1000000
    n_emitted_events := 0
    n_sent_messages_to_l1 := 0
    error_stack := []
    current_recursion_depth := depth
    max_recursion_depth := max_depth }

/-- A concrete state in which every address is deployed with the given class
hash and every class is declared. -/
def deployedState (class_hash : Felt) : StateModel :=
  { class_hash_at := fun _ => class_hash
    contract_classes := fun _ => some { constructor_selector := some 1 } }

/-- A concrete state in which no address is deployed and no class declared. -/
def undeployedState : StateModel :=
  { class_hash_at := fun _ => 0
    contract_classes := fun _ => none }

/-- A concrete runner standing in for execute_entry_point_call; never reached
in the scenarios below. -/
def haltRunner : EntryPointRunner := fun _ _ st ctx =>
  (.error (.VirtualMachineExecutionError "vm trace"), st, ctx)

/-- A concrete call descriptor. -/
def sampleCall : CallEntryPoint :=
  { class_hash := none
    code_address := none
    entry_point_type := .External
    entry_point_selector := 5
    calldata := []
    storage_address := 3
    caller_address := 0
    call_type := .Call
    initial_gas := 100 }

/-- A concrete failed inner-call result: failed with retdata 0xDEAD and a
declared gas consumption of 5. -/
def sampleFailedChild : CallInfo :=
  CallInfo.mk sampleCall
    { retdata := [0xDEAD], events := [], l2_to_l1_messages := [], failed := true,
      gas_consumed := 5 }
    { n_steps := 0 } [] [] []

/-- The dispatched execute of a concrete inner call that returns the failed
child above without touching state or context. -/
def sampleFailedExec : InnerExec := fun st ctx => (.ok sampleFailedChild, st, ctx)

/-- A concrete handler frame. -/
def sampleFrame : InnerCallFrame :=
  { vm := { segments := [] }
    st := deployedState 7
    ctx := mkContext 1 0 5
    inner_calls := [] }

/-- A concrete state whose every class is declared without a constructor. -/
def noCtorState : StateModel :=
  { class_hash_at := fun _ => 9
    contract_classes := fun _ => some { constructor_selector := none } }

/-- A concrete constructor context. -/
def sampleCtorContext : ConstructorContext :=
  { class_hash := 9, code_address := none, storage_address := 3, caller_address := 0 }

/-- A concrete call tree: a root frame with messages of orders 0 and 3 and
payload lengths 2 and 1, and one child frame with messages of orders 2 and 1
and payload lengths 4 and 3. -/
def sampleTree : CallInfo :=
  CallInfo.mk sampleCall
    { retdata := [], events := [],
      l2_to_l1_messages :=
        [{ order := 0, message := { to_address := 8, payload := [1, 2] } },
         { order := 3, message := { to_address := 8, payload := [7] } }],
      failed := false, gas_consumed := 0 }
    { n_steps := 0 }
    [CallInfo.mk sampleCall
      { retdata := [], events := [],
        l2_to_l1_messages :=
          [{ order := 2, message := { to_address := 9, payload := [1, 2, 3, 4] } },
           { order := 1, message := { to_address := 9, payload := [5, 6, 7] } }],
        failed := false, gas_consumed := 0 }
      { n_steps := 0 } [] [] []]
    [] []

/-! Theorems. -/

/-- C9: felt_to_bool returns Ok false exactly on 0, Ok true exactly on 1, and
on every other field element returns InvalidSyscallInput carrying the element
and the given info string. -/
theorem felt_to_bool_spec (f : Felt) (info : String) :
    (felt_to_bool f info = .ok false ↔ f = 0) ∧
    (felt_to_bool f info = .ok true ↔ f = 1) ∧
    (f ≠ 0 → f ≠ 1 → felt_to_bool f info = .error (.InvalidSyscallInput f info)) := by
  unfold felt_to_bool
  refine ⟨?_, ?_, ?_⟩ <;> split_ifs <;> simp_all

/-- Witness for C9 at the concrete input 7. -/
theorem felt_to_bool_spec_witness :
    felt_to_bool 7 "bool" = .error (.InvalidSyscallInput 7 "bool") :=
  (felt_to_bool_spec 7 "bool").2.2 (by decide) (by decide)

/-- C10: TransactionType::from_str succeeds exactly on the eight listed
strings, mapping each pair to its variant, and returns UnknownTransactionType
carrying the input on every other string. -/
theorem transaction_type_from_str_spec (s : String) :
    (TransactionType.from_str s = .ok .Declare ↔ (s = "Declare" ∨ s = "DECLARE")) ∧
    (TransactionType.from_str s = .ok .DeployAccount ↔
      (s = "DeployAccount" ∨ s = "DEPLOY_ACCOUNT")) ∧
    (TransactionType.from_str s = .ok .InvokeFunction ↔
      (s = "InvokeFunction" ∨ s = "INVOKE_FUNCTION")) ∧
    (TransactionType.from_str s = .ok .L1Handler ↔ (s = "L1Handler" ∨ s = "L1_HANDLER")) ∧
    (s ∉ ["Declare", "DECLARE", "DeployAccount", "DEPLOY_ACCOUNT", "InvokeFunction",
        "INVOKE_FUNCTION", "L1Handler", "L1_HANDLER"] →
      TransactionType.from_str s = .error (.UnknownTransactionType s)) := by
  unfold TransactionType.from_str
  split_ifs with h1 h2 h3 h4
  · rcases h1 with h | h <;> subst h <;> simp_all
  · rcases h2 with h | h <;> subst h <;> simp_all
  · rcases h3 with h | h <;> subst h <;> simp_all
  · rcases h4 with h | h <;> subst h <;> simp_all
  · push_neg at h1 h2 h3 h4
    refine ⟨?_, ?_, ?_, ?_, ?_⟩ <;> simp_all

/-- Witness for C10 at the concrete input DECLARE. -/
theorem transaction_type_from_str_spec_witness :
    TransactionType.from_str "DECLARE" = .ok .Declare :=
  (transaction_type_from_str_spec "DECLARE").1.mpr (Or.inr rfl)

/-- C3: when the request's gas counter is below the selector's base gas cost,
execute_syscall writes a Failure response carrying the unchanged gas counter
and the single word OUT_OF_GAS_ERROR, never invokes the callback (the handler
state is returned untouched, for every callback), and returns Ok. -/
theorem execute_syscall_out_of_gas {Request Response HandlerState : Type}
    (wrapper : SyscallRequestWrapper Request) (base_gas_cost : Nat)
    (execute_callback : Request → HandlerState → Nat →
      (Except SyscallExecutionError Response) × HandlerState × Nat)
    (s : HandlerState)
    (h : wrapper.gas_counter < base_gas_cost) :
    execute_syscall wrapper base_gas_cost execute_callback s =
      (.ok (.Failure wrapper.gas_counter [OUT_OF_GAS_ERROR]), s) := by
  unfold execute_syscall
  simp [h]

/-- Witness for C3 at a concrete request with gas 3 against base cost 5. -/
theorem execute_syscall_out_of_gas_witness :
    (3 : Nat) < 5 ∧
    @execute_syscall Nat Nat Nat ⟨3, 0⟩ 5 (fun _ s g => (.ok 0, s, g)) 0 =
      (.ok (.Failure 3 [OUT_OF_GAS_ERROR]), 0) :=
  ⟨by decide, execute_syscall_out_of_gas ⟨3, 0⟩ 5 (fun _ s g => (.ok 0, s, g)) 0 (by decide)⟩

/-- Folding an allocation sequence from any starting accumulator appends the
consecutive identifiers and the points. -/
theorem allocate_foldl_general (ps : List Secp256k1Affine) (ids : List Nat)
    (store : List Secp256k1Affine) :
    ps.foldl
        (fun acc pt =>
          let r := allocate_secp256k1_point acc.2 pt
          (acc.1 ++ [r.1], r.2))
        (ids, store) =
      (ids ++ (List.range ps.length).map (· + store.length), store ++ ps) := by
  induction ps generalizing ids store with
  | nil => simp
  | cons p tl ih =>
    rw [List.foldl_cons]
    refine (ih (ids ++ [store.length]) (store ++ [p])).trans ?_
    have hmap : (List.range (tl.length + 1)).map (· + store.length)
        = store.length :: (List.range tl.length).map (· + (store ++ [p]).length) := by
      rw [List.range_succ_eq_map]
      simp only [List.map_cons, List.map_map, Nat.zero_add, List.length_append,
        List.length_singleton]
      refine congrArg (store.length :: ·) (List.map_congr_left ?_)
      intro x _
      simp only [Function.comp_apply]
      omega
    simp only [List.length_cons, hmap]
    simp [List.append_assoc]

/-- C8: allocating points hands out the consecutive identifiers 0, 1, 2, ...
(each identifier is the number of points allocated before it) and the store
grows in allocation order; lookup by id returns the point allocated under that
id whenever the id converts to a usize below the store's size, and otherwise
(too large for a usize, or out of range) returns InvalidSyscallInput carrying
the id. -/
theorem secp256k1_points_spec (ps : List Secp256k1Affine) (id : Felt) :
    (allocate_fold ps).1 = List.range ps.length ∧
    (allocate_fold ps).2 = ps ∧
    (∀ p : Secp256k1Affine, id < 2 ^ 64 → ps.get? id = some p →
      get_secp256k1_point_by_id ps id = .ok p) ∧
    ((2 ^ 64 ≤ id ∨ ps.length ≤ id) →
      get_secp256k1_point_by_id ps id =
        .error (.InvalidSyscallInput id "Invalid Secp256k1 point ID")) := by
  refine ⟨?_, ?_, ?_, ?_⟩
  · unfold allocate_fold
    rw [allocate_foldl_general]
    simp
  · unfold allocate_fold
    rw [allocate_foldl_general]
    simp
  · intro p hlt hget
    unfold get_secp256k1_point_by_id felt252_to_usize
    rw [if_pos hlt]
    simp only [Option.bind_some, Option.some_bind]
    rw [hget]
  · intro h
    unfold get_secp256k1_point_by_id felt252_to_usize
    rcases h with h | h
    · rw [if_neg (Nat.not_lt.mpr h)]
      rfl
    · by_cases hlt : id < 2 ^ 64
      · rw [if_pos hlt]
        simp only [Option.bind_some, Option.some_bind]
        rw [List.get?_eq_none.mpr h]
      · rw [if_neg hlt]
        rfl

/-- Witness for C8 at a concrete one-point store and id 0. -/
theorem secp256k1_points_spec_witness :
    get_secp256k1_point_by_id [{ x := 1, y := 2, infinity := false }] 0 =
      .ok { x := 1, y := 2, infinity := false } :=
  (secp256k1_points_spec [{ x := 1, y := 2, infinity := false }] 0).2.2.1
    { x := 1, y := 2, infinity := false } (by decide) rfl

/-- C1: evaluation of CallEntryPoint::execute at the failing inputs.  With the
recursion depth 0 before the call, the RecursionDepthExceeded and the
UninitializedStorageAddress error paths both return with the recursion depth
left at 1: the increment at entry is not balanced on these early returns, so
the depth is not 0 again after execute returns. -/
theorem recursion_depth_unbalanced_on_early_errors :
    (mkContext 1 0 0).current_recursion_depth = 0 ∧
    (sampleCall.execute haltRunner (deployedState 7) (mkContext 1 0 0)).1 =
      .error .RecursionDepthExceeded ∧
    (sampleCall.execute haltRunner (deployedState 7)
        (mkContext 1 0 0)).2.2.current_recursion_depth = 1 ∧
    (sampleCall.execute haltRunner undeployedState (mkContext 1 0 5)).1 =
      .error (.PreExecution (.UninitializedStorageAddress 3)) ∧
    (sampleCall.execute haltRunner undeployedState
        (mkContext 1 0 5)).2.2.current_recursion_depth = 1 :=
  ⟨rfl, rfl, rfl, rfl, rfl⟩

/-- C6 (amended): provided the recursion-depth check passes (the incremented
depth does not exceed the bound), execute fails with
UninitializedStorageAddress when the storage class hash is zero, and otherwise
with FraudAttempt when the version is 0 and the effective class hash (the
descriptor's if present, else the storage one) is FAULTY_CLASS_HASH; in both
cases this happens for every runner (the VM is never invoked), with the state
untouched and the context changed only in its recursion depth (so no events,
messages or inner calls are recorded). -/
theorem execute_pre_vm_checks (runner : EntryPointRunner) (call : CallEntryPoint)
    (st : StateModel) (context : EntryPointExecutionContext)
    (hdepth : context.current_recursion_depth + 1 ≤ context.max_recursion_depth) :
    (st.class_hash_at call.storage_address = 0 →
      call.execute runner st context =
        (.error (.PreExecution (.UninitializedStorageAddress call.storage_address)), st,
          { context with current_recursion_depth := context.current_recursion_depth + 1 })) ∧
    (st.class_hash_at call.storage_address ≠ 0 →
      context.account_tx_context.version = 0 →
      call.class_hash.getD (st.class_hash_at call.storage_address) = FAULTY_CLASS_HASH →
      call.execute runner st context =
        (.error (.PreExecution .FraudAttempt), st,
          { context with current_recursion_depth := context.current_recursion_depth + 1 })) := by
  have hnd : ¬ (context.current_recursion_depth + 1 > context.max_recursion_depth) := by omega
  constructor
  · intro h0
    unfold CallEntryPoint.execute
    simp [hnd, h0]
  · intro h0 hv hf
    unfold CallEntryPoint.execute
    rw [if_neg hnd, if_neg h0]
    dsimp only
    split_ifs with hcond
    · rfl
    · exfalso
      apply hcond
      refine ⟨hv, ?_⟩
      cases hch : call.class_hash with
      | none => rw [hch] at hf; simpa using hf
      | some h => rw [hch] at hf; simpa using hf

/-- C6 counterexample: a dispatch onto an undeployed address with the
recursion bound already reached returns RecursionDepthExceeded, not
UninitializedStorageAddress as the claim states for every dispatch. -/
theorem execute_pre_vm_checks_counterexample :
    undeployedState.class_hash_at sampleCall.storage_address = 0 ∧
    (sampleCall.execute haltRunner undeployedState (mkContext 1 0 0)).1 =
      .error .RecursionDepthExceeded ∧
    (sampleCall.execute haltRunner undeployedState (mkContext 1 0 0)).1 ≠
      .error (.PreExecution (.UninitializedStorageAddress sampleCall.storage_address)) := by
  refine ⟨rfl, rfl, ?_⟩
  intro h
  have h1 : (sampleCall.execute haltRunner undeployedState (mkContext 1 0 0)).1 =
      .error .RecursionDepthExceeded := rfl
  rw [h1] at h
  exact EntryPointExecutionError.noConfusion (Except.error.inj h)

/-- Witness for the amended C6 at a concrete undeployed address. -/
theorem execute_pre_vm_checks_witness :
    (mkContext 1 0 5).current_recursion_depth + 1 ≤ (mkContext 1 0 5).max_recursion_depth ∧
    sampleCall.execute haltRunner undeployedState (mkContext 1 0 5) =
      (.error (.PreExecution (.UninitializedStorageAddress sampleCall.storage_address)),
        undeployedState,
        { mkContext 1 0 5 with
            current_recursion_depth := (mkContext 1 0 5).current_recursion_depth + 1 }) :=
  ⟨by decide,
    (execute_pre_vm_checks haltRunner sampleCall undeployedState (mkContext 1 0 5)
      (by decide)).1 rfl⟩

/-- C7: when the class of the constructor context is declared and exposes no
constructor selector, execute_constructor_entry_point with empty calldata
returns, for every runner and without touching state or context, the synthetic
constructor CallInfo (entry point type Constructor, the selector derived from
the name constructor, the context's class hash, empty calldata, and all
execution fields at their defaults); with non-empty calldata it fails with
InvalidExecutionInput on constructor_calldata. -/
theorem execute_constructor_no_ctor_spec (runner : EntryPointRunner) (st : StateModel)
    (context : EntryPointExecutionContext) (ctor_context : ConstructorContext)
    (calldata : List Felt) (remaining_gas : Nat) (cc : ContractClass)
    (hdecl : st.contract_classes ctor_context.class_hash = some cc)
    (hnoctor : cc.constructor_selector = none) :
    (calldata = [] →
      execute_constructor_entry_point runner st context ctor_context calldata remaining_gas =
        (.ok (CallInfo.mk
          { class_hash := some ctor_context.class_hash
            code_address := ctor_context.code_address
            entry_point_type := .Constructor
            entry_point_selector := selector_from_name CONSTRUCTOR_ENTRY_POINT_NAME
            calldata := []
            storage_address := ctor_context.storage_address
            caller_address := ctor_context.caller_address
            call_type := .Call
            initial_gas := remaining_gas }
          CallExecution.default { n_steps := 0 } [] [] []), st, context)) ∧
    (calldata ≠ [] →
      execute_constructor_entry_point runner st context ctor_context calldata remaining_gas =
        (.error (.InvalidExecutionInput "constructor_calldata"
          "Cannot pass calldata to a contract with no constructor."), st, context)) := by
  constructor
  · intro hc
    subst hc
    simp [execute_constructor_entry_point, hdecl, hnoctor, handle_empty_constructor]
  · intro hc
    simp [execute_constructor_entry_point, hdecl, hnoctor, handle_empty_constructor, hc]

/-- Witness for C7: a concrete class without constructor, empty calldata. -/
theorem execute_constructor_no_ctor_spec_witness :
    noCtorState.contract_classes sampleCtorContext.class_hash =
      some { constructor_selector := none } ∧
    execute_constructor_entry_point haltRunner noCtorState (mkContext 1 0 5)
        sampleCtorContext [] 50 =
      (.ok (CallInfo.mk
        { class_hash := some sampleCtorContext.class_hash
          code_address := sampleCtorContext.code_address
          entry_point_type := .Constructor
          entry_point_selector := selector_from_name CONSTRUCTOR_ENTRY_POINT_NAME
          calldata := []
          storage_address := sampleCtorContext.storage_address
          caller_address := sampleCtorContext.caller_address
          call_type := .Call
          initial_gas := 50 }
        CallExecution.default { n_steps := 0 } [] [] []), noCtorState, mkContext 1 0 5) :=
  ⟨rfl,
    (execute_constructor_no_ctor_spec haltRunner noCtorState (mkContext 1 0 5)
      sampleCtorContext [] 50 { constructor_selector := none } rfl rfl).1 rfl⟩

/-- C2 (amended): when the dispatched inner call returns a CallInfo with
failed = true, execute_inner_call surfaces SyscallError carrying the child's
retdata (the child's CallInfo is thus materialized with failed = true and its
retdata equal to the error data), state and context updates of the child are
kept but the CallInfo is not pushed onto inner_calls, and through
execute_syscall the caller observes a Failure response whose error data is the
child's retdata and whose gas counter is the incoming gas minus the selector's
base cost only: the child's declared gas_consumed is not deducted, because the
error return precedes update_remaining_gas. -/
theorem inner_call_failure_spec (exec : InnerExec) (frame : InnerCallFrame)
    (gas_counter base_gas_cost : Nat) (ci : CallInfo) (st' : StateModel)
    (ctx' : EntryPointExecutionContext)
    (hexec : exec frame.st frame.ctx = (.ok ci, st', ctx'))
    (hfailed : ci.execution.failed = true)
    (hgas : base_gas_cost ≤ gas_counter) :
    execute_inner_call exec frame (gas_counter - base_gas_cost) =
      (.error (.SyscallError ci.execution.retdata),
        { frame with st := st', ctx := ctx' }, gas_counter - base_gas_cost) ∧
    inner_call_syscall exec gas_counter base_gas_cost frame =
      (.ok (.Failure (gas_counter - base_gas_cost) ci.execution.retdata),
        { frame with st := st', ctx := ctx' }) := by
  have h1 : execute_inner_call exec frame (gas_counter - base_gas_cost) =
      (.error (.SyscallError ci.execution.retdata),
        { frame with st := st', ctx := ctx' }, gas_counter - base_gas_cost) := by
    unfold execute_inner_call
    rw [hexec]
    simp [hfailed]
  refine ⟨h1, ?_⟩
  unfold inner_call_syscall execute_syscall
  rw [if_neg (Nat.not_lt.mpr hgas)]
  simp only [h1]

/-- C2 counterexample: a concrete failing inner call with declared
gas_consumed 5, incoming gas 100 and base cost 10 produces a Failure response
with gas counter 90 = 100 - 10, not 85 = 100 - 10 - 5 as the claim states. -/
theorem inner_call_failure_counterexample :
    (inner_call_syscall sampleFailedExec 100 10 sampleFrame).1 =
      .ok (.Failure 90 [0xDEAD]) ∧
    sampleFailedChild.execution.gas_consumed = 5 ∧
    (90 : Nat) ≠ 100 - 10 - 5 :=
  ⟨rfl, rfl, by decide⟩

/-- Witness for the amended C2 at the concrete failing inner call. -/
theorem inner_call_failure_spec_witness :
    sampleFailedExec sampleFrame.st sampleFrame.ctx =
      (.ok sampleFailedChild, sampleFrame.st, sampleFrame.ctx) ∧
    sampleFailedChild.execution.failed = true ∧
    (10 : Nat) ≤ 100 ∧
    inner_call_syscall sampleFailedExec 100 10 sampleFrame =
      (.ok (.Failure (100 - 10) sampleFailedChild.execution.retdata),
        { sampleFrame with st := sampleFrame.st, ctx := sampleFrame.ctx }) :=
  ⟨rfl, rfl, by decide,
    (inner_call_failure_spec sampleFailedExec sampleFrame 100 10 sampleFailedChild
      sampleFrame.st sampleFrame.ctx rfl rfl (by decide)).2⟩

/-- fillMessages distributes over append: the first block runs, and on success
the second continues from the updated slots. -/
theorem fillMessages_append (n : Nat) (a b : List OrderedL2ToL1Message) :
    ∀ slots, fillMessages n (a ++ b) slots =
      match fillMessages n a slots with
      | .ok s => fillMessages n b s
      | .error e => .error e := by
  induction a with
  | nil => intro slots; rfl
  | cons m rest ih =>
    intro slots
    by_cases h : m.order ≥ n
    · simp only [List.cons_append, fillMessages, if_pos h]
    · simp only [List.cons_append, fillMessages, if_neg h]
      exact ih _

/-- The frame-by-frame fill loop equals a single fill over the flattened
message list. -/
theorem fillCalls_eq_fillMessages (n : Nat) (calls : List CallInfo) :
    ∀ slots, fillCalls n calls slots =
      fillMessages n (calls.flatMap (fun call => call.execution.l2_to_l1_messages)) slots := by
  induction calls with
  | nil => intro slots; rfl
  | cons c cs ih =>
    intro slots
    rw [List.flatMap_cons, fillMessages_append]
    show (match fillMessages n c.execution.l2_to_l1_messages slots with
      | .ok slots' => fillCalls n cs slots'
      | .error e => .error e) = _
    cases h : fillMessages n c.execution.l2_to_l1_messages slots with
    | ok s => exact ih s
    | error e => rfl

/-- Filling preserves the slot count. -/
theorem fillMessages_ok_length (n : Nat) (msgs : List OrderedL2ToL1Message) :
    ∀ slots s, fillMessages n msgs slots = .ok s → s.length = slots.length := by
  induction msgs with
  | nil => intro slots s h; cases h; rfl
  | cons m rest ih =>
    intro slots s h
    by_cases hm : m.order ≥ n
    · simp only [fillMessages, if_pos hm] at h
      exact Except.noConfusion h
    · simp only [fillMessages, if_neg hm] at h
      have := ih _ _ h
      simpa using this

/-- Filling succeeds exactly when every order is in range. -/
theorem fillMessages_ok_iff (n : Nat) (msgs : List OrderedL2ToL1Message) :
    ∀ slots, (∃ s, fillMessages n msgs slots = .ok s) ↔ ∀ m ∈ msgs, m.order < n := by
  induction msgs with
  | nil => intro slots; simp [fillMessages]
  | cons m rest ih =>
    intro slots
    by_cases hm : m.order ≥ n
    · simp only [fillMessages, if_pos hm]
      constructor
      · rintro ⟨s, hs⟩
        exact absurd hs (by simp)
      · intro h
        exact absurd (h m (List.mem_cons_self m rest)) (by omega)
    · simp only [fillMessages, if_neg hm]
      rw [ih]
      constructor
      · intro h m' hm'
        rcases List.mem_cons.mp hm' with rfl | h'
        · omega
        · exact h m' h'
      · intro h m' hm'
        exact h m' (List.mem_cons_of_mem _ hm')

/-- With an out-of-range order present, filling fails with InvalidOrder at an
out-of-range order of one of the messages, independently of the slots. -/
theorem fillMessages_error_invalid (n : Nat) (msgs : List OrderedL2ToL1Message) :
    (∃ m ∈ msgs, n ≤ m.order) →
    ∃ ord, n ≤ ord ∧ (∃ m ∈ msgs, m.order = ord) ∧
      ∀ slots, fillMessages n msgs slots =
        .error (.InvalidOrder "L2-to-L1 message" ord n) := by
  induction msgs with
  | nil => intro hex; simp at hex
  | cons m rest ih =>
    intro hex
    by_cases hm : m.order ≥ n
    · refine ⟨m.order, hm, ⟨m, List.mem_cons_self m rest, rfl⟩, ?_⟩
      intro slots
      simp only [fillMessages, if_pos hm]
    · have hex' : ∃ m' ∈ rest, n ≤ m'.order := by
        rcases hex with ⟨m', hm', hord⟩
        rcases List.mem_cons.mp hm' with rfl | h'
        · omega
        · exact ⟨m', h', hord⟩
      rcases ih hex' with ⟨ord, h1, ⟨m', hmem, hordeq⟩, h3⟩
      refine ⟨ord, h1, ⟨m', List.mem_cons_of_mem _ hmem, hordeq⟩, ?_⟩
      intro slots
      simp only [fillMessages, if_neg hm]
      exact h3 _

/-- A slot whose index is never an order is left untouched by the fill. -/
theorem fillMessages_get_of_not_mem (n i : Nat) (msgs : List OrderedL2ToL1Message) :
    ∀ slots s, (∀ m ∈ msgs, m.order ≠ i) → fillMessages n msgs slots = .ok s →
      s.get? i = slots.get? i := by
  induction msgs with
  | nil => intro slots s _ h; cases h; rfl
  | cons m rest ih =>
    intro slots s hni h
    by_cases hm : m.order ≥ n
    · simp only [fillMessages, if_pos hm] at h
      exact Except.noConfusion h
    · simp only [fillMessages, if_neg hm] at h
      have := ih _ _ (fun m' hm' => hni m' (List.mem_cons_of_mem _ hm')) h
      rw [this, List.get?_set_ne]
      exact hni m (List.mem_cons_self m rest)

/-- A slot already filled stays filled through the rest of the fill. -/
theorem fillMessages_get_some_stable (n i : Nat) (msgs : List OrderedL2ToL1Message) :
    ∀ slots s x, fillMessages n msgs slots = .ok s → slots.get? i = some (some x) →
      ∃ y, s.get? i = some (some y) := by
  induction msgs with
  | nil => intro slots s x h hx; cases h; exact ⟨x, hx⟩
  | cons m rest ih =>
    intro slots s x h hx
    by_cases hm : m.order ≥ n
    · simp only [fillMessages, if_pos hm] at h
      exact Except.noConfusion h
    · simp only [fillMessages, if_neg hm] at h
      by_cases he : m.order = i
      · subst he
        have hlt : m.order < slots.length := by
          by_contra hge
          rw [List.get?_eq_none.mpr (Nat.le_of_not_lt hge)] at hx
          exact Option.noConfusion hx
        exact ih _ _ m.message.payload.length h
          (by rw [List.get?_set_eq_of_lt _ hlt])
      · exact ih _ _ x h (by rw [List.get?_set_ne _ _ he]; exact hx)

/-- A slot whose index is the order of some message ends up filled. -/
theorem fillMessages_get_of_mem_order (n i : Nat) (msgs : List OrderedL2ToL1Message) :
    ∀ slots s, (∃ m ∈ msgs, m.order = i) → i < slots.length →
      fillMessages n msgs slots = .ok s → ∃ y, s.get? i = some (some y) := by
  induction msgs with
  | nil => intro slots s hex _ _; simp at hex
  | cons m0 rest ih =>
    intro slots s hex hlt h
    by_cases hm : m0.order ≥ n
    · simp only [fillMessages, if_pos hm] at h
      exact Except.noConfusion h
    · simp only [fillMessages, if_neg hm] at h
      rcases hex with ⟨m', hmem, hord⟩
      rcases List.mem_cons.mp hmem with rfl | hmem'
      · subst hord
        exact fillMessages_get_some_stable n m'.order rest _ s
          m'.message.payload.length h (by rw [List.get?_set_eq_of_lt _ hlt])
      · exact ih _ _ ⟨m', hmem', hord⟩ (by simpa using hlt) h

/-- With pairwise distinct orders, the slot at a message's order holds that
message's payload length after the fill. -/
theorem fillMessages_get_unique (n : Nat) (msgs : List OrderedL2ToL1Message) :
    ∀ slots s m, (msgs.map (fun m => m.order)).Nodup → m ∈ msgs →
      m.order < slots.length → fillMessages n msgs slots = .ok s →
      s.get? m.order = some (some m.message.payload.length) := by
  induction msgs with
  | nil => intro slots s m _ hm; simp at hm
  | cons m0 rest ih =>
    intro slots s m hnd hm hlt h
    by_cases hge : m0.order ≥ n
    · simp only [fillMessages, if_pos hge] at h
      exact Except.noConfusion h
    · simp only [fillMessages, if_neg hge] at h
      rw [List.map_cons, List.nodup_cons] at hnd
      rcases List.mem_cons.mp hm with rfl | hmem
      · have hrest : s.get? m.order =
            (slots.set m.order (some m.message.payload.length)).get? m.order := by
          apply fillMessages_get_of_not_mem n m.order rest _ s ?_ h
          intro m' hm' he
          exact hnd.1 (he ▸ List.mem_map_of_mem (fun m => m.order) hm')
        rw [hrest, List.get?_set_eq_of_lt _ hlt]
      · exact ih _ _ m hnd.2 hmem (by simpa using hlt) h

/-- A successful collect means every slot was filled, in order. -/
theorem collectSlots_ok_map (slots : List (Option Nat)) :
    ∀ k v, collectSlots k slots = .ok v → slots = v.map some := by
  induction slots with
  | nil => intro k v h; cases h; rfl
  | cons o rest ih =>
    intro k v h
    cases o with
    | none => simp [collectSlots] at h
    | some x =>
      simp only [collectSlots] at h
      cases hr : collectSlots (k + 1) rest with
      | ok acc =>
        rw [hr] at h
        cases h
        simp [ih _ _ hr]
      | error e =>
        rw [hr] at h
        exact absurd h (by simp)

/-- Collect succeeds when no slot is empty. -/
theorem collectSlots_ok_of_no_none (slots : List (Option Nat)) :
    ∀ k, (∀ o ∈ slots, o ≠ none) → ∃ v, collectSlots k slots = .ok v := by
  induction slots with
  | nil => intro k _; exact ⟨[], rfl⟩
  | cons o rest ih =>
    intro k hno
    cases o with
    | none => exact absurd rfl (hno none (List.mem_cons_self none rest))
    | some x =>
      rcases ih (k + 1) (fun o ho => hno o (List.mem_cons_of_mem _ ho)) with ⟨v, hv⟩
      exact ⟨x :: v, by simp only [collectSlots, hv]⟩

/-- With an empty slot present, collect fails with UnexpectedHoles at an index
holding an empty slot. -/
theorem collectSlots_error_hole (slots : List (Option Nat)) :
    ∀ k, none ∈ slots →
      ∃ j, j < slots.length ∧ slots.get? j = some none ∧
        collectSlots k slots = .error (.UnexpectedHoles "L2-to-L1 message" (k + j)) := by
  induction slots with
  | nil => intro k h; simp at h
  | cons o rest ih =>
    intro k h
    cases o with
    | none =>
      refine ⟨0, by simp, rfl, ?_⟩
      simp [collectSlots]
    | some x =>
      have hrest : none ∈ rest := by
        rcases List.mem_cons.mp h with h' | h'
        · exact absurd h' (by simp)
        · exact h'
      rcases ih (k + 1) hrest with ⟨j, hj1, hj2, hj3⟩
      have harith : k + 1 + j = k + (j + 1) := by omega
      refine ⟨j + 1, by simpa using hj1, by simpa using hj2, ?_⟩
      simp only [collectSlots, hj3, harith]

/-- The length of a flattened list is the sum of the layer lengths. -/
theorem length_flatMap_eq_sum {α β : Type} (l : List α) (f : α → List β) :
    (l.flatMap f).length = (l.map (fun a => (f a).length)).sum := by
  induction l with
  | nil => rfl
  | cons a tl ih => simp [ih]

/-- The total message count of a call tree is the length of its flattened
message list. -/
theorem n_messages_eq_length_allMessages (c : CallInfo) :
    c.n_messages = c.allMessages.length := by
  unfold CallInfo.n_messages CallInfo.allMessages
  rw [length_flatMap_eq_sum]

/-- The fill-then-collect pipeline, characterized on an explicit message list
whose length is the slot count. -/
theorem sortedPayloadLengths_spec (n : Nat) (msgs : List OrderedL2ToL1Message)
    (hlen : msgs.length = n) :
    ((∃ v, sortedPayloadLengths n msgs = .ok v) ↔
      (msgs.map (fun m => m.order)).Perm (List.range n)) ∧
    (∀ v, sortedPayloadLengths n msgs = .ok v →
      v.length = n ∧ ∀ m ∈ msgs, v.get? m.order = some m.message.payload.length) ∧
    ((∃ m ∈ msgs, n ≤ m.order) →
      ∃ ord, n ≤ ord ∧ (∃ m ∈ msgs, m.order = ord) ∧
        sortedPayloadLengths n msgs = .error (.InvalidOrder "L2-to-L1 message" ord n)) ∧
    ((∀ m ∈ msgs, m.order < n) →
      (∃ i, i < n ∧ ∀ m ∈ msgs, m.order ≠ i) →
      ∃ i, i < n ∧ (∀ m ∈ msgs, m.order ≠ i) ∧
        sortedPayloadLengths n msgs = .error (.UnexpectedHoles "L2-to-L1 message" i)) := by
  have master_ok : ∀ s v, fillMessages n msgs (List.replicate n none) = .ok s →
      collectSlots 0 s = .ok v →
      (msgs.map (fun m => m.order)).Perm (List.range n) ∧ v.length = n ∧
      ∀ m ∈ msgs, v.get? m.order = some m.message.payload.length := by
    intro s v hfill hcoll
    have hall : ∀ m ∈ msgs, m.order < n :=
      (fillMessages_ok_iff n msgs _).mp ⟨s, hfill⟩
    have hs_eq : s = v.map some := collectSlots_ok_map s 0 v hcoll
    have hslen : s.length = n := by
      rw [fillMessages_ok_length n msgs _ s hfill]
      simp
    have hvlen : v.length = n := by
      rw [hs_eq] at hslen
      simpa using hslen
    have hsurj : ∀ i, i < n → i ∈ msgs.map (fun m => m.order) := by
      intro i hi
      by_contra hni
      have hni' : ∀ m ∈ msgs, m.order ≠ i := by
        intro m hm he
        exact hni (he ▸ List.mem_map_of_mem (fun m => m.order) hm)
      have huntouched : s.get? i = (List.replicate n (none : Option Nat)).get? i :=
        fillMessages_get_of_not_mem n i msgs _ s hni' hfill
      have hrep : (List.replicate n (none : Option Nat)).get? i = some none := by
        rw [List.get?_eq_getElem?]
        simp [hi]
      rw [hs_eq, List.get?_map, hrep] at huntouched
      cases hvi : v.get? i with
      | none => rw [hvi] at huntouched; exact Option.noConfusion huntouched
      | some a =>
        rw [hvi] at huntouched
        simp at huntouched
    have hperm : (msgs.map (fun m => m.order)).Perm (List.range n) := by
      have hsub : (List.range n).Subperm (msgs.map (fun m => m.order)) := by
        apply List.Nodup.subperm (List.nodup_range n)
        intro i hi
        exact hsurj i (List.mem_range.mp hi)
      have hlenle : (msgs.map (fun m => m.order)).length ≤ (List.range n).length := by
        simp [hlen]
      exact (hsub.perm_of_length_le hlenle).symm
    refine ⟨hperm, hvlen, ?_⟩
    intro m hm
    have hnd : (msgs.map (fun m => m.order)).Nodup :=
      hperm.nodup_iff.mpr (List.nodup_range n)
    have hgot : s.get? m.order = some (some m.message.payload.length) := by
      apply fillMessages_get_unique n msgs _ s m hnd hm ?_ hfill
      simpa using hall m hm
    rw [hs_eq, List.get?_map] at hgot
    cases hvm : v.get? m.order with
    | none => rw [hvm] at hgot; exact Option.noConfusion hgot
    | some a =>
      rw [hvm] at hgot
      simp at hgot
      rw [hgot]
  refine ⟨?_, ?_, ?_, ?_⟩
  · constructor
    · rintro ⟨v, hv⟩
      unfold sortedPayloadLengths at hv
      cases hfill : fillMessages n msgs (List.replicate n none) with
      | error e =>
        rw [hfill] at hv
        exact absurd hv (by simp)
      | ok s =>
        rw [hfill] at hv
        exact (master_ok s v hfill hv).1
    · intro hperm
      have hall : ∀ m ∈ msgs, m.order < n := by
        intro m hm
        have hmem : m.order ∈ List.range n :=
          hperm.subset (List.mem_map_of_mem (fun m => m.order) hm)
        exact List.mem_range.mp hmem
      rcases (fillMessages_ok_iff n msgs (List.replicate n none)).mpr hall with ⟨s, hfill⟩
      have hslen : s.length = n := by
        rw [fillMessages_ok_length n msgs _ s hfill]
        simp
      have hno : ∀ o ∈ s, o ≠ none := by
        intro o ho hnone
        subst hnone
        rcases List.mem_iff_get?.mp ho with ⟨j, hj⟩
        have hjlt : j < s.length := by
          by_contra hge
          rw [List.get?_eq_none.mpr (Nat.le_of_not_lt hge)] at hj
          exact Option.noConfusion hj
        have hjn : j < n := by omega
        have hj_mem : j ∈ msgs.map (fun m => m.order) :=
          hperm.symm.subset (List.mem_range.mpr hjn)
        rcases List.mem_map.mp hj_mem with ⟨m, hm, hord⟩
        rcases fillMessages_get_of_mem_order n j msgs _ s ⟨m, hm, hord⟩
          (by simpa using hjn) hfill with ⟨y, hy⟩
        rw [hj] at hy
        simp at hy
      rcases collectSlots_ok_of_no_none s 0 hno with ⟨v, hv⟩
      refine ⟨v, ?_⟩
      unfold sortedPayloadLengths
      rw [hfill]
      exact hv
  · intro v hv
    unfold sortedPayloadLengths at hv
    cases hfill : fillMessages n msgs (List.replicate n none) with
    | error e =>
      rw [hfill] at hv
      exact absurd hv (by simp)
    | ok s =>
      rw [hfill] at hv
      exact ⟨(master_ok s v hfill hv).2.1, (master_ok s v hfill hv).2.2⟩
  · intro hex
    rcases fillMessages_error_invalid n msgs hex with ⟨ord, h1, h2, h3⟩
    refine ⟨ord, h1, h2, ?_⟩
    unfold sortedPayloadLengths
    rw [h3 _]
  · intro hall hex
    rcases hex with ⟨i0, hi0, hno_msg⟩
    rcases (fillMessages_ok_iff n msgs (List.replicate n none)).mpr hall with ⟨s, hfill⟩
    have hslen : s.length = n := by
      rw [fillMessages_ok_length n msgs _ s hfill]
      simp
    have hhole : s.get? i0 = some none := by
      have huntouched := fillMessages_get_of_not_mem n i0 msgs _ s hno_msg hfill
      rw [huntouched, List.get?_eq_getElem?]
      simp [hi0]
    have hmem_none : (none : Option Nat) ∈ s := List.get?_mem hhole
    rcases collectSlots_error_hole s 0 hmem_none with ⟨j, hj1, hj2, hj3⟩
    have hjn : j < n := by omega
    refine ⟨j, hjn, ?_, ?_⟩
    · intro m hm he
      rcases fillMessages_get_of_mem_order n j msgs _ s ⟨m, hm, he⟩
        (by simpa using hjn) hfill with ⟨y, hy⟩
      rw [hj2] at hy
      simp at hy
    · unfold sortedPayloadLengths
      rw [hfill]
      simpa using hj3

/-- C4: get_sorted_l2_to_l1_payloads_length succeeds exactly when the multiset
of message orders over all frames is 0..N-1 for N the total message count, and
then the entry at index i is the payload length of the message with order i;
a message with an out-of-range order yields InvalidOrder carrying such an
order and max_order N (this also wins when holes are present, since the fill
loop detects it first); with all orders in range but some slot never filled,
the result is UnexpectedHoles at an unfilled slot index. -/
theorem get_sorted_l2_to_l1_payloads_length_spec (c : CallInfo) :
    ((∃ v, c.get_sorted_l2_to_l1_payloads_length = .ok v) ↔
      (c.allMessages.map (fun m => m.order)).Perm (List.range c.n_messages)) ∧
    (∀ v, c.get_sorted_l2_to_l1_payloads_length = .ok v →
      v.length = c.n_messages ∧
      ∀ m ∈ c.allMessages, v.get? m.order = some m.message.payload.length) ∧
    ((∃ m ∈ c.allMessages, c.n_messages ≤ m.order) →
      ∃ ord, c.n_messages ≤ ord ∧ (∃ m ∈ c.allMessages, m.order = ord) ∧
        c.get_sorted_l2_to_l1_payloads_length =
          .error (.InvalidOrder "L2-to-L1 message" ord c.n_messages)) ∧
    ((∀ m ∈ c.allMessages, m.order < c.n_messages) →
      (∃ i, i < c.n_messages ∧ ∀ m ∈ c.allMessages, m.order ≠ i) →
      ∃ i, i < c.n_messages ∧ (∀ m ∈ c.allMessages, m.order ≠ i) ∧
        c.get_sorted_l2_to_l1_payloads_length =
          .error (.UnexpectedHoles "L2-to-L1 message" i)) := by
  have heq : c.get_sorted_l2_to_l1_payloads_length =
      sortedPayloadLengths c.n_messages c.allMessages := by
    unfold CallInfo.get_sorted_l2_to_l1_payloads_length sortedPayloadLengths CallInfo.allMessages
    rw [fillCalls_eq_fillMessages]
  have h := sortedPayloadLengths_spec c.n_messages c.allMessages
    (n_messages_eq_length_allMessages c).symm
  rw [heq]
  exact h

/-- Witness for C4: the concrete tree with orders 0, 3, 2, 1 succeeds. -/
theorem get_sorted_l2_to_l1_payloads_length_spec_witness :
    ∃ v, sampleTree.get_sorted_l2_to_l1_payloads_length = .ok v :=
  (get_sorted_l2_to_l1_payloads_length_spec sampleTree).1.mpr (by
    have horders : sampleTree.allMessages.map (fun m => m.order) = [0, 3, 2, 1] := by
      simp [sampleTree, CallInfo.allMessages, CallInfo.intoIter, drainCallInfos,
        CallInfo.inner_calls, CallInfo.execution]
    have hn : sampleTree.n_messages = 4 := by
      simp [sampleTree, CallInfo.n_messages, CallInfo.intoIter, drainCallInfos,
        CallInfo.inner_calls, CallInfo.execution]
    rw [horders, hn]
    decide)

end Blockifier
